import Mathlib

/-!
Verification of the conversation-and-image-session state machine of the
photo-chat demo application.

The embedded code is the `Home` component state of `src/app/page.tsx`
(state variables `images`, `messages`, `isLoading` and the handlers
`handleImageCapture`, `removeImage`, `handleSendMessage`) together with
the conversation-history windowing of the server action `chatWithImage`
(`actions/chat.ts`).

The asynchronous `handleSendMessage` is embedded in two phases:
`sendPhase` performs everything up to and including the invocation of the
AI inference call (returning the request that was sent, or `none` when no
call is made), and `resolvePhase` applies the settled result of the call
to the state current at resolution time (matching React functional state
updates, which read the state present when the promise settles, not when
the call started).  `handleSendMessage` composes the two for the
non-interleaved execution; interleaving claims use the phases directly.
-/

namespace PhotoChat

/-- Message author role, the source type `'user' | 'assistant'`. -/
inductive Role where
  | user
  | assistant
deriving DecidableEq, Repr

/-- A chat message as built in `page.tsx`: `{ id, role, content, timestamp,
imageUrl? }`.  Timestamps (`Date.now()` / `new Date()`) are modelled as a
natural number supplied by the caller. -/
structure Message where
  id : String
  role : Role
  content : String
  timestamp : Nat
  imageUrl : Option String := none
deriving DecidableEq, Repr

/-- The React component state of `Home` in `src/app/page.tsx`. -/
structure SessionState where
  images : List String
  messages : List Message
  isLoading : Bool
deriving DecidableEq, Repr

/-- Initial state: `useState<string[]>([])`, `useState<Message[]>([])`,
`useState(false)`. -/
def initState : SessionState := { images := [], messages := [], isLoading := false }

/-- `handleImageCapture(imageUrl)` from `page.tsx`:
the empty-string sentinel clears both lists; otherwise the image is
appended, the list is truncated with `slice(-3)` when it exceeds 3, and
messages are cleared. -/
def handleImageCapture (imageUrl : String) (s : SessionState) : SessionState :=
  if imageUrl = "" then
    { s with images := [], messages := [] }
  else
    let newImages := s.images ++ [imageUrl]
    let images :=
      if newImages.length > 3 then newImages.drop (newImages.length - 3) else newImages
    { s with images := images, messages := [] }

/-- The index-aware filter `prev.filter((_, i) => i !== index)` used by
`removeImage`: `k` is the position of the head of the remaining list.
The removal index is an `Int` since any JavaScript integer may be passed. -/
def filterOutIndex (index : Int) : List String → Nat → List String
  | [], _ => []
  | x :: xs, k =>
      if (k : Int) = index then filterOutIndex index xs (k + 1)
      else x :: filterOutIndex index xs (k + 1)

/-- `removeImage(index)` from `page.tsx`: drops the entry at `index`
(if any) and clears messages.  Total by construction, mirroring that
`Array.prototype.filter` never throws on any index value. -/
def removeImage (index : Int) (s : SessionState) : SessionState :=
  { s with images := filterOutIndex index s.images 0, messages := [] }

/-- The result type of the `chatWithImage` server action,
`ChatResponse = { message, success, error? }`. -/
structure ChatResponse where
  message : String
  success : Bool
  error : Option String := none
deriving DecidableEq, Repr

/-- Outcome of awaiting the AI inference call: it either returns a
`ChatResponse` or throws (caught by the `try`/`catch` in
`handleSendMessage`). -/
inductive AIResult where
  | ok (resp : ChatResponse)
  | thrown
deriving DecidableEq, Repr

/-- The argument triple passed to `chatWithImage(enhancedMessage,
images[0], conversationHistory)`. -/
structure AIRequest where
  message : String
  imageUrl : String
  history : List (Role × String)
deriving DecidableEq, Repr

/-- The canned assistant message built when `sendMessage` runs with no
images (`page.tsx` lines 46–51). -/
def noImageMessage (now : Nat) : Message :=
  { id := toString now
    role := Role.assistant
    content := "Please upload or capture an image first so I can analyze it for you."
    timestamp := now
    imageUrl := none }

/-- First half of `handleSendMessage(message)` (`page.tsx` lines 43–83):
the empty-images guard, `setIsLoading(true)`, appending the user message,
building the conversation-history projection, the multi-image text
augmentation, and the invocation of `chatWithImage`.  Returns the state
after these synchronous updates and the request sent to the AI call
(`none` when the guard short-circuits and no call is made). -/
def sendPhase (message : String) (now : Nat) (s : SessionState) :
    SessionState × Option AIRequest :=
  match s.images with
  | [] => ({ s with messages := [noImageMessage now] }, none)
  | img0 :: _ =>
      let userMessage : Message :=
        { id := toString now
          role := Role.user
          content := message
          timestamp := now
          imageUrl := some img0 }
      let updatedMessages := s.messages ++ [userMessage]
      let conversationHistory := updatedMessages.map (fun m => (m.role, m.content))
      let enhancedMessage :=
        if s.images.length > 1 then
          "I have " ++ toString s.images.length ++ " images to analyze. " ++ message
        else message
      ({ s with messages := updatedMessages, isLoading := true },
       some { message := enhancedMessage, imageUrl := img0, history := conversationHistory })

/-- Second half of `handleSendMessage` (`page.tsx` lines 85–102): the
settled AI call.  On `success` the assistant message is appended with the
functional update `setMessages((prev) => [...prev, aiMessage])`, which
appends to whatever the messages list is at resolution time; on
`success=false` or a thrown error only logging happens; `finally` sets
`isLoading` to `false` in every case.  `now2` is the clock at resolution
(the source uses `Date.now() + 1` for the id). -/
def resolvePhase (ai : AIResult) (now2 : Nat) (s : SessionState) : SessionState :=
  match ai with
  | AIResult.ok resp =>
      if resp.success then
        { s with
            messages := s.messages ++
              [{ id := toString (now2 + 1)
                 role := Role.assistant
                 content := resp.message
                 timestamp := now2
                 imageUrl := none }]
            isLoading := false }
      else { s with isLoading := false }
  | AIResult.thrown => { s with isLoading := false }

/-- The whole `handleSendMessage` call when nothing else runs between the
invocation of the AI call and its resolution: `sendPhase` followed (when a
call was made) by `resolvePhase` on the intermediate state. -/
def handleSendMessage (message : String) (ai : AIResult) (now now2 : Nat)
    (s : SessionState) : SessionState × Option AIRequest :=
  match sendPhase message now s with
  | (s1, none) => (s1, none)
  | (s1, some r) => (resolvePhase ai now2 s1, some r)

/-- Folding a sequence of `handleImageCapture` calls over a state. -/
def addImages (ps : List String) (s : SessionState) : SessionState :=
  ps.foldl (fun t p => handleImageCapture p t) s

/-- The history windowing performed inside the `chatWithImage`
collaborator (`actions/chat.ts`): `conversationHistory.slice(-6)` keeps
the last 6 entries (the role and content fields are always present in the
typed embedding, so the defensive `filter` of the source keeps
everything). -/
def recentHistoryWindow (h : List (Role × String)) : List (Role × String) :=
  h.drop (h.length - 6)

/-- The last `n` elements of a list, oldest first, mirroring
`Array.prototype.slice(-n)`. -/
def lastN (n : Nat) (l : List String) : List String := l.drop (l.length - n)

/-! ## Supporting lemmas -/

theorem lastN_of_le (n : Nat) (l : List String) (h : l.length ≤ n) : lastN n l = l := by
  unfold lastN
  have hz : l.length - n = 0 := by omega
  rw [hz, List.drop_zero]

theorem lastN_length_le (n : Nat) (l : List String) : (lastN n l).length ≤ n := by
  unfold lastN
  rw [List.length_drop]
  omega

theorem lastN_append_left (x y : List String) (n : Nat) (h : n ≤ y.length) :
    lastN n (x ++ y) = lastN n y := by
  unfold lastN
  rw [List.length_append]
  have harith : x.length + y.length - n = x.length + (y.length - n) := by omega
  rw [harith, List.drop_append]

theorem lastN_absorb (m ps : List String) :
    lastN 3 (lastN 3 m ++ ps) = lastN 3 (m ++ ps) := by
  by_cases h : m.length ≤ 3
  · rw [lastN_of_le 3 m h]
  · have h3 : (lastN 3 m).length = 3 := by
      unfold lastN
      rw [List.length_drop]
      omega
    have hlen : 3 ≤ (lastN 3 m ++ ps).length := by
      rw [List.length_append]
      omega
    have hsplit : m.take (m.length - 3) ++ (lastN 3 m ++ ps) = m ++ ps := by
      rw [← List.append_assoc]
      unfold lastN
      rw [List.take_append_drop]
    rw [← hsplit, lastN_append_left (m.take (m.length - 3)) (lastN 3 m ++ ps) 3 hlen]

theorem handleImageCapture_images (p : String) (s : SessionState) (hp : p ≠ "") :
    (handleImageCapture p s).images = lastN 3 (s.images ++ [p]) := by
  unfold handleImageCapture
  rw [if_neg hp]
  show (if (s.images ++ [p]).length > 3 then
          (s.images ++ [p]).drop ((s.images ++ [p]).length - 3)
        else s.images ++ [p]) = lastN 3 (s.images ++ [p])
  split
  · rfl
  · next hle => exact (lastN_of_le 3 _ (by omega)).symm

theorem addImages_images (ps : List String) (h : ∀ p ∈ ps, p ≠ "") :
    ∀ s : SessionState, s.images.length ≤ 3 →
      (addImages ps s).images = lastN 3 (s.images ++ ps) := by
  induction ps with
  | nil =>
      intro s hs
      show s.images = lastN 3 (s.images ++ [])
      rw [List.append_nil, lastN_of_le 3 _ hs]
  | cons p ps ih =>
      intro s hs
      have hp : p ≠ "" := h p (List.mem_cons_self p ps)
      have h' : ∀ q ∈ ps, q ≠ "" := fun q hq => h q (List.mem_cons_of_mem p hq)
      show (addImages ps (handleImageCapture p s)).images = lastN 3 (s.images ++ p :: ps)
      rw [ih h' (handleImageCapture p s)
            (by rw [handleImageCapture_images p s hp]; exact lastN_length_le 3 _)]
      rw [handleImageCapture_images p s hp, lastN_absorb]
      rw [List.append_assoc, List.singleton_append]

theorem filterOutIndex_out_of_range (index : Int) (l : List String) :
    ∀ k : Nat, (index < (k : Int) ∨ (k : Int) + (l.length : Int) ≤ index) →
      filterOutIndex index l k = l := by
  induction l with
  | nil => intro k _; rfl
  | cons x xs ih =>
      intro k hk
      have hne : ¬((k : Int) = index) := by
        rcases hk with hk | hk
        · omega
        · push_cast [List.length_cons] at hk
          omega
      have hrec : index < ((k + 1 : Nat) : Int) ∨
          ((k + 1 : Nat) : Int) + (xs.length : Int) ≤ index := by
        rcases hk with hk | hk
        · left
          push_cast
          omega
        · right
          push_cast [List.length_cons] at hk ⊢
          omega
      unfold filterOutIndex
      rw [if_neg hne, ih (k + 1) hrec]

/-! ## Claims -/

/-- C1: for every sequence of `addImage` calls with non-empty payloads
starting from the initial state, the images list is exactly the last 3
payloads in oldest-first order (`lastN 3 ps = ps.drop (ps.length - 3)`,
which is all of `ps` while at most 3 have been added), so its length
never exceeds 3 and once more than 3 are added the survivors are the 3
most recently added, oldest first. -/
theorem addImage_bounded_fifo (ps : List String) (h : ∀ p ∈ ps, p ≠ "") :
    (addImages ps initState).images = lastN 3 ps ∧
      (addImages ps initState).images.length ≤ 3 := by
  have him : (addImages ps initState).images = lastN 3 ps := by
    have := addImages_images ps h initState (by simp [initState])
    rwa [show initState.images = [] from rfl, List.nil_append] at this
  exact ⟨him, him ▸ lastN_length_le 3 ps⟩

/-- Witness for C1 at the spec scenario: adding img1..img4 leaves
exactly the three most recent images, oldest first. -/
theorem addImage_bounded_fifo_witness :
    (addImages ["img1", "img2", "img3", "img4"] initState).images
        = ["img2", "img3", "img4"] ∧
      (addImages ["img1", "img2", "img3", "img4"] initState).images.length ≤ 3 := by
  have h := addImage_bounded_fifo ["img1", "img2", "img3", "img4"] (by decide)
  exact ⟨h.1.trans (by decide), h.2⟩

/-- C2: immediately after any `addImage` call (any payload, sentinel
included) or any `removeImage` call (any integer index, out-of-range
included), from any prior state, the messages list is empty. -/
theorem imageChange_clears_messages (p : String) (i : Int) (s t : SessionState) :
    (handleImageCapture p s).messages = [] ∧ (removeImage i t).messages = [] := by
  refine ⟨?_, rfl⟩
  unfold handleImageCapture
  split
  · rfl
  · rfl

/-- C6: `removeImage` is a total function of any integer index (the
embedding of `Array.prototype.filter` cannot throw), and an out-of-range
index — negative, or at least `images.length` — leaves the images list
unchanged (and, as always, clears messages). -/
theorem removeImage_out_of_range (i : Int) (s : SessionState)
    (h : i < 0 ∨ (s.images.length : Int) ≤ i) :
    (removeImage i s).images = s.images ∧ (removeImage i s).messages = [] := by
  refine ⟨?_, rfl⟩
  show filterOutIndex i s.images 0 = s.images
  apply filterOutIndex_out_of_range
  push_cast
  omega

/-- Witness for C6 at the spec scenario: `removeImage(5)` on
`images = ['a', 'b']` leaves the images unchanged. -/
theorem removeImage_out_of_range_witness :
    ((5 : Int) < 0 ∨ ((SessionState.mk ["a", "b"] [] false).images.length : Int) ≤ 5) ∧
      ((removeImage 5 (SessionState.mk ["a", "b"] [] false)).images
          = (SessionState.mk ["a", "b"] [] false).images ∧
        (removeImage 5 (SessionState.mk ["a", "b"] [] false)).messages = []) :=
  ⟨Or.inr (by decide), removeImage_out_of_range 5 _ (Or.inr (by decide))⟩

/-- C7: `addImage('')` — the empty-string sentinel — clears both the
images list and the messages list from any prior state (and leaves the
loading flag untouched). -/
theorem addImage_sentinel_clears (s : SessionState) :
    (handleImageCapture "" s).images = [] ∧ (handleImageCapture "" s).messages = [] ∧
      (handleImageCapture "" s).isLoading = s.isLoading :=
  ⟨rfl, rfl, rfl⟩

/-- C3: a `sendMessage(text)` call with non-empty images (written
`img :: rest`) appends exactly one user message carrying `text` and a
reference to `images[0]`, sets the busy flag (Idle → AwaitingReply), and
does invoke the AI call; when the call returns success, exactly one
assistant message carrying the returned text is appended and the busy
flag returns to false (AwaitingReply → Idle). -/
theorem sendMessage_success (text reply : String) (e : Option String) (now now2 : Nat)
    (img : String) (rest : List String) (msgs : List Message) (ld : Bool) :
    (sendPhase text now (SessionState.mk (img :: rest) msgs ld)).1.messages
        = msgs ++ [⟨toString now, Role.user, text, now, some img⟩] ∧
      (sendPhase text now (SessionState.mk (img :: rest) msgs ld)).1.isLoading = true ∧
      (sendPhase text now (SessionState.mk (img :: rest) msgs ld)).2 ≠ none ∧
      (resolvePhase (AIResult.ok ⟨reply, true, e⟩) now2
          (sendPhase text now (SessionState.mk (img :: rest) msgs ld)).1).messages
        = (msgs ++ [⟨toString now, Role.user, text, now, some img⟩])
            ++ [⟨toString (now2 + 1), Role.assistant, reply, now2, none⟩] ∧
      (resolvePhase (AIResult.ok ⟨reply, true, e⟩) now2
          (sendPhase text now (SessionState.mk (img :: rest) msgs ld)).1).isLoading = false := by
  refine ⟨rfl, rfl, ?_, rfl, rfl⟩
  simp [sendPhase]

/-- C4 counterexample: from the reachable state reached by one
no-image `sendMessage` (images empty, messages holding the canned
assistant message), a further `sendMessage` call does not append a
message to the prior list — the result has 1 message, not 2, because the
source replaces the list with `setMessages([systemMessage])`. -/
theorem sendMessage_noImage_append_counterexample :
    ¬ ∃ m : Message,
        (handleSendMessage "hi" (AIResult.ok ⟨"A cat", true, none⟩) 1 2
            (SessionState.mk [] [noImageMessage 0] false)).1.messages
          = (SessionState.mk [] [noImageMessage 0] false).messages ++ [m] := by
  rintro ⟨m, hm⟩
  have hlen := congrArg List.length hm
  simp [handleSendMessage, sendPhase] at hlen

/-- C4 (amended): a `sendMessage` call with empty images replaces the
messages list with exactly one assistant-authored message asking the
user to supply an image (rather than appending it to any prior
messages), and no AI Inference call is performed. -/
theorem sendMessage_noImage (text : String) (ai : AIResult) (now now2 : Nat)
    (msgs : List Message) (ld : Bool) :
    (handleSendMessage text ai now now2 (SessionState.mk [] msgs ld)).1.messages
        = [noImageMessage now] ∧
      (noImageMessage now).role = Role.assistant ∧
      (handleSendMessage text ai now now2 (SessionState.mk [] msgs ld)).2 = none :=
  ⟨rfl, rfl, rfl⟩

/-- C5: a `sendMessage(text)` call with non-empty images whose AI call
throws or returns `success = false` leaves the messages list holding the
prior messages plus only the user message of that turn (no synthetic
assistant or error message), and the busy flag returns to false. -/
theorem sendMessage_failure (text : String) (ai : AIResult) (now now2 : Nat)
    (img : String) (rest : List String) (msgs : List Message) (ld : Bool)
    (hfail : ai = AIResult.thrown ∨ ∃ reply err, ai = AIResult.ok ⟨reply, false, err⟩) :
    (handleSendMessage text ai now now2 (SessionState.mk (img :: rest) msgs ld)).1.messages
        = msgs ++ [⟨toString now, Role.user, text, now, some img⟩] ∧
      (handleSendMessage text ai now now2
          (SessionState.mk (img :: rest) msgs ld)).1.isLoading = false := by
  rcases hfail with h | ⟨reply, err, h⟩ <;> subst h <;> exact ⟨rfl, rfl⟩

/-- Witness for C5: a thrown AI call on the one-image session leaves only
the user's message and clears the busy flag. -/
theorem sendMessage_failure_witness :
    (AIResult.thrown = AIResult.thrown ∨
        ∃ reply err, AIResult.thrown = AIResult.ok ⟨reply, false, err⟩) ∧
      ((handleSendMessage "what is this" AIResult.thrown 5 7
            (SessionState.mk ["img1"] [] false)).1.messages
          = [] ++ [⟨toString 5, Role.user, "what is this", 5, some "img1"⟩] ∧
        (handleSendMessage "what is this" AIResult.thrown 5 7
            (SessionState.mk ["img1"] [] false)).1.isLoading = false) :=
  ⟨Or.inl rfl,
    sendMessage_failure "what is this" AIResult.thrown 5 7 "img1" [] [] false (Or.inl rfl)⟩

/-- C8: a `sendMessage` call with more than one image present (written
`img :: img2 :: rest`) sends to the AI call the text prefixed with the
count disclosure built from `images.length`, transmits only the first
image `images[0]`, and passes the full history projection. -/
theorem sendMessage_multi_image_request (text : String) (now : Nat)
    (img img2 : String) (rest : List String) (msgs : List Message) (ld : Bool) :
    (sendPhase text now (SessionState.mk (img :: img2 :: rest) msgs ld)).2
      = some
          { message := "I have " ++ toString (img :: img2 :: rest).length
              ++ " images to analyze. " ++ text
            imageUrl := img
            history := (msgs ++ [(⟨toString now, Role.user, text, now, some img⟩ : Message)]).map
              (fun m : Message => (m.role, m.content)) } := by
  unfold sendPhase
  rw [if_pos (by simp)]

/-- C9: every `sendMessage` call that reaches the AI Inference call
passes a conversation-history projection consisting of the role+content
pair of every message present when the call is made (the prior messages
plus the just-appended user message), oldest first, with no length limit
at the session-manager layer (its length is always `messages.length + 1`);
the 6-entry truncation is performed by the `recentHistoryWindow` of the
`chatWithImage` collaborator. -/
theorem sendMessage_history_projection (text : String) (now : Nat)
    (img : String) (rest : List String) (msgs : List Message) (ld : Bool) :
    ∃ r : AIRequest,
      (sendPhase text now (SessionState.mk (img :: rest) msgs ld)).2 = some r ∧
      r.history = (msgs ++ [(⟨toString now, Role.user, text, now, some img⟩ : Message)]).map
          (fun m : Message => (m.role, m.content)) ∧
      r.history.length = msgs.length + 1 ∧
      (recentHistoryWindow r.history).length = min r.history.length 6 := by
  refine ⟨_, rfl, rfl, by simp, ?_⟩
  unfold recentHistoryWindow
  rw [List.length_drop]
  omega

/-- C10 counterexample: add an image, start a `sendMessage` turn, clear
the session (`addImage('')`) while the AI call is outstanding, then let
the successful response settle: the assistant reply IS appended to the
cleared session's messages instead of being discarded. -/
theorem superseded_reply_counterexample :
    (handleImageCapture ""
        (sendPhase "what is this" 5 (handleImageCapture "img1" initState)).1).messages = [] ∧
      (resolvePhase (AIResult.ok ⟨"A cat", true, none⟩) 7
          (handleImageCapture ""
            (sendPhase "what is this" 5 (handleImageCapture "img1" initState)).1)).messages
        = [⟨toString (7 + 1), Role.assistant, "A cat", 7, none⟩] :=
  ⟨rfl, rfl⟩

/-- C10 (amended): the success callback appends its reply with a
functional update against whatever messages list is current, with no
guard on the originating image set: if the session was reset
(`addImage('')`) while the call was outstanding, the
completed-but-superseded reply is NOT discarded — it becomes the sole
message of the cleared session. -/
theorem superseded_reply_appended (u : SessionState) (reply : String)
    (e : Option String) (now2 : Nat) :
    (handleImageCapture "" u).messages = [] ∧
      (resolvePhase (AIResult.ok ⟨reply, true, e⟩) now2 (handleImageCapture "" u)).messages
        = [⟨toString (now2 + 1), Role.assistant, reply, now2, none⟩] :=
  ⟨rfl, rfl⟩

end PhotoChat
